import Mathlib

/-!
Verification of the async-edinet-client pipeline: a shallow embedding of the
fetch-retry logic, the document extraction pipeline, the CSV encoding
resolution, the record classifier and the value normalizers, together with
theorems checking the natural-language design document against this embedding.

All machine behaviour is modelled from the Python sources:
  src/edinet_integration/edinet_fetch_document.py
  src/edinet_integration/edinet_fetch_doclist.py
  src/edinet_integration/edinet_fetch.py
  src/edinet_integration/exceptions.py
  src/edinet_integration/utils.py
  src/edinet_integration/schemas/doc.py
  src/async_edinet_client/doc_processor.py
-/

set_option maxRecDepth 4000

namespace AsyncEdinet

/--
Dynamic class of a raised exception, mirroring exceptions.py plus the two
httpx transport failure classes.  EdinetServerError, EdinetAPIRateLimitError,
EdinetAPIAuthError and EdinetClientError are subclasses of EdinetAPIError;
a value of this type records the most derived class of the raised object,
which is what an isinstance test against a tuple of these classes inspects.
valueErr stands for the ValueError or JSONDecodeError raised by
response.json() on a body that is not JSON.
-/
inductive ExcKind where
  | networkErr      -- httpx.NetworkError
  | timeoutErr      -- httpx.TimeoutException
  | serverErr       -- EdinetServerError
  | rateLimitErr    -- EdinetAPIRateLimitError
  | authErr         -- EdinetAPIAuthError
  | clientErr       -- EdinetClientError
  | apiErr          -- EdinetAPIError (the base class itself)
  | valueErr        -- ValueError family
  deriving DecidableEq, Repr

/--
Membership of an exception class in the tuple passed as the on argument of
stamina.retry_context in both fetchers:
(httpx.NetworkError, httpx.TimeoutException, EdinetServerError,
EdinetAPIRateLimitError).  A plain EdinetAPIError instance is not an
instance of any class in the tuple, so it is not retried.
-/
def retryOn : ExcKind → Bool
  | .networkErr => true
  | .timeoutErr => true
  | .serverErr => true
  | .rateLimitErr => true
  | _ => false

/--
Classes caught by the except clause for httpx.HTTPError in _fetch_list:
both transport failure classes derive from httpx.HTTPError.
-/
def isHttpxError : ExcKind → Bool
  | .networkErr => true
  | .timeoutErr => true
  | _ => false

/--
Modelled behaviour of the async-for loop over stamina.retry_context:
attempt i is executed; on success the loop returns; on an exception, the
attempt is re-run only when the exception class is in the on tuple, a
further attempt remains within the configured attempt count, and the time
spent so far is still within the configured total time budget.  Otherwise
the exception propagates.  The fuel argument counts remaining allowed
attempts; the second Nat is the index of the next attempt.  elapsedAfter i
gives the seconds elapsed when attempt i has failed.  The fuel = 0 base case
corresponds to the statement after the loop (raise EdinetAPIError with the
retries-exhausted message), reachable only when the attempt count is 0.
The result pairs the number of attempts actually made with the outcome.
-/
def retryLoop {A : Type} (onExc : ExcKind → Bool) (timeBudget : Nat)
    (attemptOutcome : Nat → Except ExcKind A) (elapsedAfter : Nat → Nat) :
    Nat → Nat → Nat × Except ExcKind A
  | 0, i => (i, .error .apiErr)
  | fuel + 1, i =>
    match attemptOutcome i with
    | .ok a => (i + 1, .ok a)
    | .error e =>
      if onExc e = true ∧ fuel ≠ 0 ∧ elapsedAfter i ≤ timeBudget then
        retryLoop onExc timeBudget attemptOutcome elapsedAfter fuel (i + 1)
      else (i + 1, .error e)

/-- Body of a 200 response to the document endpoint. -/
inductive DocBody where
  | jsonBody (j : String)   -- the body parses as JSON; j is its text
  | byteBody (b : List Nat) -- raw archive bytes, response.json() raises
  deriving DecidableEq, Repr

/-- What the network delivers for one attempt of _fetch_doc. -/
inductive DocAttemptEnv where
  | netFail                           -- client.get raises httpx.NetworkError
  | timeoutFail                       -- client.get raises httpx.TimeoutException
  | status (code : Nat) (body : DocBody)
  deriving DecidableEq, Repr

/-- Value produced by a successful attempt of _fetch_doc: either the parsed
JSON message (returned where bytes were expected) or the raw bytes. -/
inductive DocContent where
  | jsonContent (j : String)
  | byteContent (b : List Nat)
  deriving DecidableEq, Repr

/--
One attempt of EdinetDocAPIFetcher._fetch_doc, following the status
dispatch of the source: 200 returns the parsed JSON when the body parses,
the raw content otherwise; 400 and 404 raise EdinetClientError; 401 raises
EdinetAPIAuthError; 429 raises EdinetAPIRateLimitError; codes of 500 and
above raise EdinetServerError; anything else raises EdinetAPIError.
-/
def fetchDocAttempt : DocAttemptEnv → Except ExcKind DocContent
  | .netFail => .error .networkErr
  | .timeoutFail => .error .timeoutErr
  | .status code body =>
    if code = 200 then
      match body with
      | .jsonBody j => .ok (.jsonContent j)
      | .byteBody b => .ok (.byteContent b)
    else if code = 400 then .error .clientErr
    else if code = 404 then .error .clientErr
    else if code = 401 then .error .authErr
    else if code = 429 then .error .rateLimitErr
    else if 500 ≤ code then .error .serverErr
    else .error .apiErr

/-- The whole retrying _fetch_doc call: the attempt environment is a map
from attempt index to network behaviour. -/
def run_fetch_doc (retry_attempts retry_timeout : Nat)
    (env : Nat → DocAttemptEnv) (elapsedAfter : Nat → Nat) :
    Nat × Except ExcKind DocContent :=
  retryLoop retryOn retry_timeout (fun i => fetchDocAttempt (env i))
    elapsedAfter retry_attempts 0

/-- HTTP status codes named RETRY_STATUS_CODES on EdinetBaseAPIFetcher. -/
def RETRY_STATUS_CODES : List Nat := [429, 500, 502, 503, 504]

/-- What the network delivers for one attempt of _fetch_list; at 200 the
flag records whether response.json() parses. -/
inductive ListAttemptEnv where
  | netFail
  | timeoutFail
  | status (code : Nat) (jsonOk : Bool)
  deriving DecidableEq, Repr

/--
The try block inside one attempt of EdinetDoclistAPIFetcher._fetch_list,
before its own except clauses run: 200 returns the parsed JSON and the
status code; 401 raises EdinetAPIAuthError; 429 raises
EdinetAPIRateLimitError; a code in RETRY_STATUS_CODES raises a plain
EdinetAPIError (note: not EdinetServerError); every other code raises
EdinetClientError.
-/
def listTryBody : ListAttemptEnv → Except ExcKind Nat
  | .netFail => .error .networkErr
  | .timeoutFail => .error .timeoutErr
  | .status code jsonOk =>
    if code = 200 then
      if jsonOk then .ok code else .error .valueErr
    else if code = 401 then .error .authErr
    else if code = 429 then .error .rateLimitErr
    else if code ∈ RETRY_STATUS_CODES then .error .apiErr
    else .error .clientErr

/--
One full attempt of _fetch_list including its two except clauses: an
httpx.HTTPError is re-raised as a plain EdinetAPIError carrying a
connection-error message, and every other exception, including the typed
Edinet errors raised just above, is re-raised as a plain EdinetAPIError
carrying the unknown-error message.  In both cases the dynamic class that
reaches stamina is the base EdinetAPIError.
-/
def fetchListAttempt (env : ListAttemptEnv) : Except ExcKind Nat :=
  match listTryBody env with
  | .ok v => .ok v
  | .error e =>
    if isHttpxError e = true then .error .apiErr
    else .error .apiErr

/-- The whole retrying _fetch_list call. -/
def run_fetch_list (retry_attempts retry_timeout : Nat)
    (env : Nat → ListAttemptEnv) (elapsedAfter : Nat → Nat) :
    Nat × Except ExcKind Nat :=
  retryLoop retryOn retry_timeout (fun i => fetchListAttempt (env i))
    elapsedAfter retry_attempts 0

/--
A Python value as it can appear for a classified cell after
DocResult.smart_value_normalizer ran: an int, a float (represented exactly as
a rational), a str, or None.
-/
inductive PyVal where
  | pint (n : Int)
  | pfloat (q : Rat)
  | pstr (s : String)
  | pnone
  deriving DecidableEq, Repr

/-- Value of a run of decimal digit characters. -/
def digitsToNat (cs : List Char) : Nat :=
  cs.foldl (fun a c => a * 10 + (c.toNat - 48)) 0

/-- All characters are decimal digits. -/
def allDigits (cs : List Char) : Bool :=
  cs.all (fun c => c.isDigit)

/--
Model of int(s) for a Python string: an optional sign followed by a
nonempty run of decimal digits.  CPython additionally strips surrounding
whitespace and allows underscore digit grouping; those forms do not occur
in this data and are out of scope of the model.
-/
def parsePyInt (s : String) : Option Int :=
  match s.toList with
  | [] => none
  | c :: rest =>
    if c = '-' then
      if rest ≠ [] ∧ allDigits rest then some (-(digitsToNat rest : Int))
      else none
    else if c = '+' then
      if rest ≠ [] ∧ allDigits rest then some (digitsToNat rest : Int)
      else none
    else if allDigits (c :: rest) then some (digitsToNat (c :: rest) : Int)
    else none

/-- Unsigned part of a float literal: digits, an optional dot, digits, with
at least one digit in total.  A second dot makes the fractional part
non-numeric and the parse fails, as float() does. -/
def parseUnsignedFloat (cs : List Char) : Option Rat :=
  match cs.span (fun c => c ≠ '.') with
  | (intPart, []) =>
    if intPart ≠ [] ∧ allDigits intPart then some (digitsToNat intPart : Rat)
    else none
  | (intPart, _dot :: fracPart) =>
    if allDigits intPart ∧ allDigits fracPart ∧ (intPart ≠ [] ∨ fracPart ≠ []) then
      some ((digitsToNat intPart : Rat)
        + (digitsToNat fracPart : Rat) / ((10 : Rat) ^ fracPart.length))
    else none

/--
Model of float(s) for a Python string: optional sign and a decimal literal.
Exponent notation and the inf and nan spellings are out of scope; none of
the claims touch them.
-/
def parsePyFloat (s : String) : Option Rat :=
  match s.toList with
  | [] => none
  | c :: rest =>
    if c = '-' then (parseUnsignedFloat rest).map (fun q => -q)
    else if c = '+' then parseUnsignedFloat rest
    else parseUnsignedFloat (c :: rest)

/--
DocResult.smart_value_normalizer from schemas/doc.py: on a string value, try
int(), then float(), then keep the string; a non-string value (here: the
absent-value None produced by the CSV read stage) is returned unchanged.
-/
def smart_value_normalizer : Option String → PyVal
  | none => .pnone
  | some s =>
    match parsePyInt s with
    | some n => .pint n
    | none =>
      match parsePyFloat s with
      | some q => .pfloat q
      | none => .pstr s

/--
Cell normalization performed by _sync_read_csv_with_encoding in utils.py:
df.replace maps every NaN cell (a missing value, modelled as none) and
every empty-string cell to None before any classification runs.
-/
def normalizeCell : Option String → Option String
  | none => none
  | some s => if s = "" then none else some s

/-- Truthiness of str in CPython: the empty string is falsy, every other
string is truthy; bool(s) never raises. -/
def pyBoolOfString (s : String) : Bool :=
  s ≠ ""

/-- Result of the MetadataExtract field validator for the is_amendment and
consolidated fields: either the bool produced by bool(v), or the value
passed through unchanged. -/
inductive MetaBoolField where
  | asBool (b : Bool)
  | passthrough (v : PyVal)
  deriving DecidableEq, Repr

/--
MetadataExtract.smart_value_normalizer from schemas/doc.py, applied to the
is_amendment and consolidated fields: if the value is a str, return
bool(v); since bool() on a string never raises ValueError, the except
branch that would return the string unchanged is unreachable, and every
non-string value passes through.
-/
def meta_smart_value_normalizer : PyVal → MetaBoolField
  | .pstr s => .asBool (pyBoolOfString s)
  | v => .passthrough v

/-- One row of a parsed tab-separated data file, keeping the columns the
classifier reads.  A cell is none when it was missing or empty (the read
stage already normalized both to None). -/
structure RawRow where
  elementId : String          -- the element id column
  contextId : Option String   -- the context id column
  rawValue : Option String    -- the value column
  deriving DecidableEq, Repr

/-- One entry of the raw_csv_data list handed to the classifier: a file
name and the rows read from that file. -/
structure CsvFile where
  filename : String
  data : List RawRow
  deriving DecidableEq, Repr

/-- The 14 metadata element ids, DocProcessor.META_PATTERNS. -/
def META_PATTERNS : List String :=
  [ "jpdei_cor:FilerNameInEnglishDEI",
    "jpdei_cor:SecurityCodeDEI",
    "jpdei_cor:AccountingStandardsDEI",
    "jpdei_cor:EDINETCodeDEI",
    "jpcrp_cor:CompanyNameInEnglishCoverPage",
    "jpdei_cor:WhetherConsolidatedFinancialStatementsArePreparedDEI",
    "jpdei_cor:TypeOfCurrentPeriodDEI",
    "jpdei_cor:CurrentFiscalYearStartDateDEI",
    "jpdei_cor:CurrentPeriodEndDateDEI",
    "jpdei_cor:CurrentFiscalYearEndDateDEI",
    "jpdei_cor:PreviousFiscalYearStartDateDEI",
    "jpdei_cor:ComparativePeriodEndDateDEI",
    "jpdei_cor:PreviousFiscalYearEndDateDEI",
    "jpdei_cor:AmendmentFlagDEI" ]

/-- The context id filter list, DocProcessor.CONTEXT_PATTERNS. -/
def CONTEXT_PATTERNS : List String :=
  ["FilingDate", "Current", "Prior1"]

/-- The startswith test of Python str, on the character sequences of the
two strings. -/
def pyStartsWith (s pat : String) : Bool :=
  pat.toList.isPrefixOf s.toList

/-- Truthiness of the context id cell: the if-not-context-id guard drops a
missing cell and an empty string. -/
def contextTruthy : Option String → Bool
  | none => false
  | some s => s ≠ ""

/-- The re.search test for the narrative pattern .*DescriptionOfBusiness.*
holds exactly when the element id contains that substring. -/
def narrativeMatch (elementId : String) : Bool :=
  decide ("DescriptionOfBusiness".toList <:+: elementId.toList)

/-- The DocResult record the classifier builds for a kept row, keeping the
fields the claims are about. -/
structure DocResultM where
  sourceFile : String
  elementId : String
  contextIdentifier : String
  value : PyVal
  deriving DecidableEq, Repr

/-- DocResult construction for one row: the value field runs
smart_value_normalizer. -/
def mkDocResult (filename : String) (r : RawRow) : DocResultM :=
  { sourceFile := filename
    elementId := r.elementId
    contextIdentifier := r.contextId.getD ""
    value := smart_value_normalizer r.rawValue }

/-- Python str() applied to a parsed value, as used on the narrative value
before translation.  The float rendering is an approximation of the CPython
repr; no claim depends on that case. -/
def pyStr : PyVal → String
  | .pint n => toString n
  | .pfloat q => toString q
  | .pstr s => s
  | .pnone => "None"

/-- Update of a Python dict modelled as a lookup function. -/
def dictSet (m : String → Option PyVal) (k : String) (v : PyVal) :
    String → Option PyVal :=
  fun x => if x = k then some v else m x

/--
Running state of DocProcessor.process_raw_csv_data: the output records
accumulated so far, the metadata dict, the business description
accumulator, and the log of arguments passed to translator.translate (one
entry per call).
-/
structure ClassifyState where
  records : List DocResultM
  metadata : String → Option PyVal
  narrative : String
  translateCalls : List String

/-- Initial classifier state. -/
def initClassifyState : ClassifyState :=
  { records := [], metadata := fun _ => none, narrative := ""
    translateCalls := [] }

/--
Handling of one row inside process_raw_csv_data, in source order: drop the
row when the context id cell is falsy; drop it when the context id starts
with none of the CONTEXT_PATTERNS; otherwise build the DocResult and
dispatch: a metadata element id is written into the metadata dict and the
row ends there; a narrative match sends str(value) to the translator and
appends the translation to the accumulator; otherwise the row is kept as a
record, subject to the custom_fields allow-list when one was supplied.
The translator is modelled as a pure function.
-/
def processRow (custom_fields : Option (List String)) (tr : String → String)
    (filename : String) (st : ClassifyState) (r : RawRow) : ClassifyState :=
  if contextTruthy r.contextId = false then st
  else
    let cid := r.contextId.getD ""
    if CONTEXT_PATTERNS.any (fun p => pyStartsWith cid p) then
      let cr := mkDocResult filename r
      if META_PATTERNS.contains cr.elementId then
        { st with metadata := dictSet st.metadata cr.elementId cr.value }
      else if narrativeMatch cr.elementId then
        let arg := pyStr cr.value
        { st with narrative := st.narrative ++ tr arg
                  translateCalls := st.translateCalls ++ [arg] }
      else
        match custom_fields with
        | some cf =>
          if cf.contains cr.elementId then
            { st with records := st.records ++ [cr] }
          else st
        | none => { st with records := st.records ++ [cr] }
    else st

/-- Rows of one file, processed in order.  The per-file buffer the source
extends into filtered_results afterwards preserves the same record order,
so appending directly is equivalent. -/
def processFile (custom_fields : Option (List String)) (tr : String → String)
    (st : ClassifyState) (f : CsvFile) : ClassifyState :=
  f.data.foldl (processRow custom_fields tr f.filename) st

/--
DocProcessor.process_raw_csv_data: fold the files in order, then store the
accumulated business description into the metadata container under its
key.  The second component is len(raw_csv_data), returned as
total_csv_files.
-/
def process_raw_csv_data (custom_fields : Option (List String))
    (tr : String → String) (files : List CsvFile) : ClassifyState × Nat :=
  let st := files.foldl (processFile custom_fields tr) initClassifyState
  ({ st with
      metadata := dictSet st.metadata "business_description" (.pstr st.narrative) },
    files.length)

/-- The ExtractDocMessage result object, keeping the fields the claims are
about.  The results field carries the classified records. -/
structure ExtractDocMessageM where
  doc_id : String
  total_csv_files : Nat
  extract_status : String          -- success or fail
  extract_message : Option String
  results : List DocResultM
  deriving DecidableEq, Repr

/-- The initial message get_document builds before fetching: status fail,
no message, no results. -/
def initExtractMessage (doc_id : String) : ExtractDocMessageM :=
  { doc_id := doc_id, total_csv_files := 0, extract_status := "fail"
    extract_message := none, results := [] }

/-- Rendering of str(e) for a caught fetch error; the claims do not depend
on the exact text. -/
def excText : ExcKind → String
  | .networkErr => "network error"
  | .timeoutErr => "timeout"
  | .serverErr => "Server error"
  | .rateLimitErr => "API rate limit exceeded"
  | .authErr => "Authentication failed - check subscription key"
  | .clientErr => "client error"
  | .apiErr => "api error"
  | .valueErr => "value error"

/--
EdinetDocAPIFetcher.get_document after the _fetch_doc call, from
edinet_fetch_document.py: a raised fetch error is caught and recorded as
the extract_message of the fail message; a content value that is not bytes
(the parsed JSON returned at a 200 with a JSON body) is recorded as the
parsing-failed message on the fail message; only a bytes content reaches
process_zip_file, whose result (abstracted as processZip) is returned.
The Bool of the result tells whether process_zip_file was invoked.
-/
def get_document (doc_id : String)
    (fetchResult : Except ExcKind DocContent)
    (processZip : List Nat → ExtractDocMessageM) :
    ExtractDocMessageM × Bool :=
  match fetchResult with
  | .error e =>
    ({ initExtractMessage doc_id with extract_message := some (excText e) },
      false)
  | .ok (.jsonContent _) =>
    ({ initExtractMessage doc_id with
        extract_message := some ("Document " ++ doc_id ++ " parsing failed.") },
      false)
  | .ok (.byteContent b) => (processZip b, true)

/-!
Workspace lifetime model for process_zip_file.  The body of the
with-tempfile.TemporaryDirectory block is modelled as a trace of events
together with an exit mode; the with statement itself brackets the body
events between the directory creation and the unconditional cleanup that
TemporaryDirectory.__exit__ performs, which Python runs both when the body
returns and when an exception, including a cancellation delivered at an
await point, propagates out of the body.
-/

/-- Filesystem events touching the temporary extraction workspace. -/
inductive ZipEv where
  | mkdirTemp    -- TemporaryDirectory created the workspace
  | rmdirTemp    -- TemporaryDirectory.__exit__ removed it
  | otherEv      -- any other work (extraction, reads, classification)
  deriving DecidableEq, Repr

/-- The control-flow paths through the body of the with block in
process_zip_file, one constructor per exit path of the source. -/
inductive ZipPath where
  | badZip              -- _sync_extract_zip raises BadZipFile: early return
  | extractOtherError   -- any other extraction exception: early return
  | noCsvFound          -- _find_csv_paths found nothing: early return
  | completed           -- the whole pipeline ran: normal exit
  | processorError      -- process_raw_csv_data raised: exception exits the with
  | interruptedExtract  -- cancellation at the extraction await point
  | interruptedRead     -- cancellation while reading the data files
  | interruptedProcess  -- cancellation during classification
  deriving DecidableEq, Repr

/-- How the body of the with block terminates on each path: an early
return carrying a fail message, a normal completion, or a propagating
exception. -/
inductive BodyExit where
  | returnedFail (msg : String)
  | returnedSuccess
  | raised
  deriving DecidableEq, Repr

/-- Exit mode of the with-block body on each path of process_zip_file. -/
def zipBodyExit : ZipPath → BodyExit
  | .badZip => .returnedFail "Bad ZIP file"
  | .extractOtherError => .returnedFail "Error extracting"
  | .noCsvFound => .returnedFail "No CSV files found in zip"
  | .completed => .returnedSuccess
  | .processorError => .raised
  | .interruptedExtract => .raised
  | .interruptedRead => .raised
  | .interruptedProcess => .raised

/-- Events the body performs on each path; the body itself never creates
or removes the workspace directory. -/
def zipBodyEvents : ZipPath → List ZipEv
  | .badZip => [.otherEv]
  | .extractOtherError => [.otherEv]
  | .noCsvFound => [.otherEv, .otherEv]
  | .completed => [.otherEv, .otherEv, .otherEv, .otherEv]
  | .processorError => [.otherEv, .otherEv, .otherEv, .otherEv]
  | .interruptedExtract => []
  | .interruptedRead => [.otherEv, .otherEv]
  | .interruptedProcess => [.otherEv, .otherEv, .otherEv]

/-- The with statement semantics: the directory is created on entry and
removed on exit whatever the body did. -/
def withTempDirTrace (bodyEvents : List ZipEv) : List ZipEv :=
  [ZipEv.mkdirTemp] ++ bodyEvents ++ [ZipEv.rmdirTemp]

/-- Full event trace of one process_zip_file call on a given path. -/
def process_zip_file_trace (p : ZipPath) : List ZipEv :=
  withTempDirTrace (zipBodyEvents p)

/-- Whether the workspace directory exists after a trace has run. -/
def dirExistsAfter (trace : List ZipEv) : Bool :=
  trace.foldl
    (fun b e =>
      match e with
      | .mkdirTemp => true
      | .rmdirTemp => false
      | .otherEv => b)
    false

/-!  Encoding resolution, utils.read_csv_file. -/

/-- The fixed fallback encodings, COMMON_ENCODINGS in utils.py. -/
def COMMON_ENCODINGS : List String :=
  [ "utf-16", "utf-16le", "utf-16be", "utf-8",
    "shift-jis", "euc-jp", "iso-8859-1", "windows-1252" ]

/-- Candidate list construction in read_csv_file: the detected encoding
first when there is one, then the fallback list, keeping only truthy
entries not already present, preserving order. -/
def uniqueEncodings (detected : Option String) : List String :=
  ((match detected with | some d => [d] | none => []) ++ COMMON_ENCODINGS).foldl
    (fun acc e => if e ≠ "" ∧ e ∉ acc then acc ++ [e] else acc) []

/--
The encoding loop of read_csv_file: try each candidate in order with the
reader (modelling _sync_read_csv_with_encoding, which returns None on a
decode or structural parse failure and the parsed rows otherwise); the
first success is returned and no later candidate is tried.  The first
component records the candidates actually tried, in order.
-/
def tryEncodings {A : Type} (readWith : String → Option A) :
    List String → List String × Option A
  | [] => ([], none)
  | e :: rest =>
    match readWith e with
    | some r => ([e], some r)
    | none =>
      let p := tryEncodings readWith rest
      (e :: p.1, p.2)

/-- utils.read_csv_file given the chardet guess and the per-encoding
reader: build the candidate list and run the loop; when every candidate
fails the file yields no rows (None). -/
def read_csv_file {A : Type} (detected : Option String)
    (readWith : String → Option A) : List String × Option A :=
  tryEncodings readWith (uniqueEncodings detected)

/-- Outcome of reading one eligible data file inside process_zip_file:
rows, an unreadable file (read_csv_file returned None), or an exception
returned by asyncio.gather. -/
inductive FileReadOutcome (A : Type) where
  | okRows (rows : A)
  | unreadable
  | raisedExc
  deriving DecidableEq, Repr

/-- One entry of raw_csv_data_list: a filename with its rows. -/
structure RawFileData (A : Type) where
  filename : String
  rows : A
  deriving DecidableEq, Repr

/--
The collection loop of process_zip_file over the per-file read results:
a file whose read raised is logged and skipped, a file that yielded no
rows is logged and skipped, and a file with rows is appended with its
filename; the loop never terminates the document-level call.
-/
def collectRawCsvData {A : Type} :
    List (String × FileReadOutcome A) → List (RawFileData A)
  | [] => []
  | p :: rest =>
    match p.2 with
    | .okRows rows => ⟨p.1, rows⟩ :: collectRawCsvData rest
    | .unreadable => collectRawCsvData rest
    | .raisedExc => collectRawCsvData rest

/--
Document-level result assembly of process_zip_file: extraction failures
and an empty file list end with a fail status; otherwise the per-file read
outcomes are collected (read failures only skip their file) and, when the
classifier does not raise, the result status is success with
total_csv_files equal to the length of the collected list.
csvPathsEmpty models _find_csv_paths returning no files at all.
-/
def process_zip_file_status {A : Type}
    (extractOk : Except Unit Unit)     -- ok, or BadZipFile and friends
    (csvPathsEmpty : Bool)
    (outcomes : List (String × FileReadOutcome A))
    (processorOk : Bool) : String × List (RawFileData A) :=
  match extractOk with
  | .error _ => ("fail", [])
  | .ok _ =>
    if csvPathsEmpty then ("fail", [])
    else
      let raw := collectRawCsvData outcomes
      if processorOk then ("success", raw) else ("fail", raw)

/-!  Date-interval document list fetch, fetch_date_interval_doc_list. -/

/-- Successful per-date data: the HTTP status _fetch_list returned with
the JSON, the status and message fields of the JSON metadata block, and
the filtered documents for that date. -/
structure DayFetchOk where
  httpStatus : Int
  metaStatus : Int
  metaMessage : Option String
  docs : List String
  deriving DecidableEq, Repr

/--
The exception a date iteration catches.  hasStatusCodeAttr tells whether
the exception object has a status_code attribute at all; statusCodeAttr is
its value when present.  Every exception class in exceptions.py sets the
attribute in its constructor with default None, and every exception
escaping _fetch_list is a base EdinetAPIError built with only a message,
so for those hasStatusCodeAttr is true and statusCodeAttr is none.  Only
an exception from outside that hierarchy (for example a TypeError from the
metadata parsing on the success path) lacks the attribute.
-/
structure DayFetchErr where
  hasStatusCodeAttr : Bool
  statusCodeAttr : Option Int
  msg : String
  deriving DecidableEq, Repr

/-- The getattr call of the per-date except clause: the attribute value
when the attribute exists (even when that value is None), the default 500
only when the exception has no status_code attribute. -/
def getattrStatusCode (e : DayFetchErr) : Option Int :=
  if e.hasStatusCodeAttr then e.statusCodeAttr else some 500

/-- Accumulator dict res of fetch_date_interval_doc_list.  Days are
modelled as day numbers; an entry pairs the day with the recorded value,
matching the one-key dicts the source appends.  A status_code entry can
hold None: that is what getattr yields for the errors _fetch_list
raises. -/
structure IntervalState where
  status_code : List (Nat × Option Int)
  fetch_status : List (Nat × Int)
  message : List (Nat × Option String)
  results : List String
  deriving DecidableEq, Repr

/-- Empty accumulator. -/
def initIntervalState : IntervalState :=
  { status_code := [], fetch_status := [], message := [], results := [] }

/-- Pacing trace events: a listing request for a day boundary, or the
fixed asyncio.sleep pause. -/
inductive PaceEv where
  | request (day : Nat)
  | pause (interval : Rat)
  deriving DecidableEq, Repr

/--
The try-except body for one date of fetch_date_interval_doc_list: on
success append the HTTP status, the metadata status and the metadata
message under the date key and extend results with the filtered documents
of the date; on a raised error append whatever getattr finds for
status_code (the attribute value, possibly None, or the default 500 when
the attribute is absent) together with the exception text, then continue
with the next date.
-/
def stepDate (env : Nat → Except DayFetchErr DayFetchOk) (d : Nat)
    (st : IntervalState) : IntervalState :=
  match env d with
  | .ok v =>
    { st with
        status_code := st.status_code ++ [(d, some v.httpStatus)]
        fetch_status := st.fetch_status ++ [(d, v.metaStatus)]
        message := st.message ++ [(d, v.metaMessage)]
        results := st.results ++ v.docs }
  | .error e =>
    { st with
        status_code := st.status_code ++ [(d, getattrStatusCode e)]
        message := st.message ++ [(d, some e.msg)] }

/-- Consecutive day numbers, n of them starting at d. -/
def dayList : Nat → Nat → List Nat
  | _, 0 => []
  | d, n + 1 => d :: dayList (d + 1) n

/-- The while loop of fetch_date_interval_doc_list: process the date,
sleep for the configured interval, advance the cursor by one day, for n
remaining days, also collecting the pacing trace. -/
def runIntervalAux (env : Nat → Except DayFetchErr DayFetchOk)
    (interval : Rat) : Nat → Nat → IntervalState →
    IntervalState × List PaceEv
  | 0, _, st => (st, [])
  | n + 1, d, st =>
    let st1 := stepDate env d st
    let p := runIntervalAux env interval n (d + 1) st1
    (p.1, [PaceEv.request d, PaceEv.pause interval] ++ p.2)

/-- The DocListMultiMessage result object: its status_code field is typed
list of dict of str to int, so every recorded value must be an int. -/
structure DocListMultiMessageM where
  status_code : List (Nat × Int)
  fetch_status : List (Nat × Int)
  message : List (Nat × Option String)
  count : Nat
  results : List String
  deriving DecidableEq, Repr

/-- Pydantic validation of the status_code field of DocListMultiMessage,
whose annotation requires an int for every recorded value: the list is
accepted exactly when no entry holds None; one None entry makes the model
constructor raise a ValidationError. -/
def validateStatusCodes : List (Nat × Option Int) → Option (List (Nat × Int))
  | [] => some []
  | (d, some v) :: rest => (validateStatusCodes rest).map (fun t => (d, v) :: t)
  | (_, none) :: _ => none

/--
fetch_date_interval_doc_list over day numbers dFrom to dTo inclusive: the
cursor starts at dFrom and the loop runs while it is at most dTo; then the
accumulated dict is handed to the DocListMultiMessage constructor.  When
the status_code validation rejects a recorded None, the constructor raises
and the whole-range call fails (modelled as the error case), discarding
everything the loop accumulated; otherwise the assembled message is
returned.  The fetch_status and message annotations admit None, so only
status_code can reject.
-/
def fetch_date_interval_doc_list (env : Nat → Except DayFetchErr DayFetchOk)
    (interval : Rat) (dFrom dTo : Nat) :
    Except Unit DocListMultiMessageM × List PaceEv :=
  let p := runIntervalAux env interval (dTo + 1 - dFrom) dFrom initIntervalState
  (match validateStatusCodes p.1.status_code with
    | some sc =>
      .ok { status_code := sc
            fetch_status := p.1.fetch_status
            message := p.1.message
            count := p.1.results.length
            results := p.1.results }
    | none => .error (),
    p.2)

/-- The requests of a pacing trace, in order. -/
def requestsOf (evs : List PaceEv) : List Nat :=
  evs.filterMap (fun e => match e with | .request d => some d | _ => none)

/-- Status code recorded for a day: the HTTP status on success, the
getattr result on failure (the status_code attribute, possibly None, or
the default 500 when the attribute is absent). -/
def scOf : Except DayFetchErr DayFetchOk → Option Int
  | .ok v => some v.httpStatus
  | .error e => getattrStatusCode e

/-- The per-day environment of the failing input: day 1 raises the plain
EdinetAPIError _fetch_list produces, whose status_code attribute exists
and is None; the other days succeed with one document each. -/
def dayOneFails : Nat → Except DayFetchErr DayFetchOk := fun d =>
  if d = 1 then .error ⟨true, none, "Unknown error after retries"⟩
  else .ok ⟨200, 0, none, if d = 0 then ["day0-doc"] else ["day2-doc"]⟩

/-- A contrasting environment whose day-1 exception has no status_code
attribute, so getattr falls back to the default 500 and the assembly
validation passes. -/
def dayOneNoAttr : Nat → Except DayFetchErr DayFetchOk := fun d =>
  if d = 1 then .error ⟨false, none, "TypeError"⟩
  else .ok ⟨200, 0, none, if d = 0 then ["day0-doc"] else ["day2-doc"]⟩

/-- Message recorded for a day: the metadata message on success, the
exception text on failure. -/
def msgOf : Except DayFetchErr DayFetchOk → Option String
  | .ok v => v.metaMessage
  | .error e => some e.msg

/-- fetch_status entries contributed by a day: one on success, none on
failure. -/
def fsOf (x : Nat) : Except DayFetchErr DayFetchOk → List (Nat × Int)
  | .ok v => [(x, v.metaStatus)]
  | .error _ => []

/-- Documents contributed by a day: the filtered list on success, none on
failure. -/
def docsOf : Except DayFetchErr DayFetchOk → List String
  | .ok v => v.docs
  | .error _ => []

/-- Invariant of every record the classifier outputs: the element id is
not a metadata tag and the context identifier starts with one of the
recognized context patterns. -/
def goodRecord (d : DocResultM) : Prop :=
  d.elementId ∉ META_PATTERNS
  ∧ CONTEXT_PATTERNS.any (fun p => pyStartsWith d.contextIdentifier p) = true

/-!  Theorems. -/

/-- The number of attempts made by a retry loop never exceeds the attempt
count it was started with. -/
theorem retryLoop_attempt_bound {A : Type} (onExc : ExcKind → Bool)
    (tb : Nat) (f : Nat → Except ExcKind A) (el : Nat → Nat) :
    ∀ fuel i, (retryLoop onExc tb f el fuel i).1 ≤ i + fuel := by
  intro fuel
  induction fuel with
  | zero => intro i; simp [retryLoop]
  | succ n ih =>
    intro i
    simp only [retryLoop]
    cases f i with
    | ok a => simp
    | error e =>
      simp only
      by_cases h : onExc e = true ∧ n ≠ 0 ∧ el i ≤ tb
      · rw [if_pos h]
        have := ih (i + 1)
        omega
      · rw [if_neg h]
        simp

/-- An attempt that fails with an exception outside the on tuple is never
followed by another attempt. -/
theorem retryLoop_stops_nonretryable {A : Type} (onExc : ExcKind → Bool)
    (tb : Nat) (f : Nat → Except ExcKind A) (el : Nat → Nat)
    (fuel i : Nat) (e : ExcKind) (hf : f i = .error e)
    (hnr : onExc e = false) :
    (retryLoop onExc tb f el (fuel + 1) i).1 = i + 1 := by
  simp only [retryLoop, hf]
  rw [if_neg]
  simp [hnr]

/-- Once the elapsed time exceeds the budget, a failing attempt is never
followed by another attempt. -/
theorem retryLoop_stops_on_budget {A : Type} (onExc : ExcKind → Bool)
    (tb : Nat) (f : Nat → Except ExcKind A) (el : Nat → Nat)
    (fuel i : Nat) (e : ExcKind) (hf : f i = .error e)
    (ht : tb < el i) :
    (retryLoop onExc tb f el (fuel + 1) i).1 = i + 1 := by
  simp only [retryLoop, hf]
  rw [if_neg]
  intro h
  omega

/--
C1 (code evaluation at the failing input): with three configured attempts
and a large time budget, a document fetch whose first attempt returns HTTP
429 and whose second returns 200 makes two attempts and succeeds (the 429
was retried), while a filing-list fetch in the identical situation makes
exactly one attempt and fails with a plain EdinetAPIError: _fetch_list
rewraps the EdinetAPIRateLimitError into the base class that stamina does
not retry.  The same happens to a network failure and to a 500 on the
list side, while the document side retries both.
-/
theorem fetch_retry_divergence_doc_vs_list :
    (run_fetch_doc 3 45
      (fun i => if i = 0 then .status 429 (.byteBody []) else .status 200 (.byteBody [7]))
      (fun _ => 0)) = (2, .ok (.byteContent [7]))
  ∧ (run_fetch_list 3 45
      (fun i => if i = 0 then .status 429 true else .status 200 true)
      (fun _ => 0)) = (1, .error .apiErr)
  ∧ (run_fetch_doc 3 45
      (fun i => if i = 0 then .netFail else .status 200 (.byteBody [7]))
      (fun _ => 0)) = (2, .ok (.byteContent [7]))
  ∧ (run_fetch_list 3 45
      (fun i => if i = 0 then .netFail else .status 200 true)
      (fun _ => 0)) = (1, .error .apiErr)
  ∧ (run_fetch_list 3 45
      (fun i => if i = 0 then .status 500 true else .status 200 true)
      (fun _ => 0)) = (1, .error .apiErr)
  ∧ (run_fetch_doc 3 45
      (fun _ => .status 401 (.byteBody [])) (fun _ => 0)).1 = 1
  ∧ (run_fetch_doc 3 45
      (fun _ => .status 404 (.byteBody [])) (fun _ => 0)).1 = 1 := by
  refine ⟨rfl, rfl, rfl, rfl, rfl, rfl, rfl⟩

/--
C2: when _fetch_doc sees a 200 whose body parses as JSON, it returns the
parsed JSON; get_document then returns the prepared fail message with the
parsing-failed text and process_zip_file is never invoked.
-/
theorem json_body_at_200_is_parse_failure :
    ∀ (doc_id j : String) (processZip : List Nat → ExtractDocMessageM),
      fetchDocAttempt (.status 200 (.jsonBody j)) = .ok (.jsonContent j)
      ∧ (get_document doc_id (.ok (.jsonContent j)) processZip).1.extract_status
          = "fail"
      ∧ (get_document doc_id (.ok (.jsonContent j)) processZip).1.extract_message
          = some ("Document " ++ doc_id ++ " parsing failed.")
      ∧ (get_document doc_id (.ok (.jsonContent j)) processZip).2 = false := by
  intro doc_id j processZip
  exact ⟨rfl, rfl, rfl, rfl⟩

/--
C3: on every control-flow path through process_zip_file, the temporary
extraction workspace no longer exists once the call has finished: the
success path, both extraction failure paths, the empty-archive path, a
classifier exception, and a cancellation at any await point all leave the
with block, whose exit removes the directory.
-/
theorem workspace_removed_on_every_exit_path :
    ∀ p : ZipPath, dirExistsAfter (process_zip_file_trace p) = false := by
  intro p
  cases p <;> rfl

/--
C10: the MetadataExtract validator for the consolidation and amendment
flags applies bool() to every string value, so the result is the truthiness
of the string: every non-empty string, including false, 0 and no,
normalizes to True, only the empty string normalizes to False, and a
string value is never preserved as a string.
-/
theorem bool_flag_normalizer_truthiness :
    (∀ s : String, meta_smart_value_normalizer (.pstr s) = .asBool (pyBoolOfString s))
  ∧ (∀ s : String, pyBoolOfString s = false ↔ s = "")
  ∧ meta_smart_value_normalizer (.pstr "false") = .asBool true
  ∧ meta_smart_value_normalizer (.pstr "0") = .asBool true
  ∧ meta_smart_value_normalizer (.pstr "no") = .asBool true
  ∧ meta_smart_value_normalizer (.pstr "") = .asBool false := by
  refine ⟨fun s => rfl, fun s => ?_, by decide, by decide, by decide, by decide⟩
  simp [pyBoolOfString]

/--
C9: value normalization on kept rows parses an integer string to the
integer, otherwise a float string to the float, otherwise keeps the
string; a missing value stays absent, and the read stage turns an empty
cell into the absent value before any classification.
-/
theorem value_normalization_cases :
    smart_value_normalizer (some "123") = .pint 123
  ∧ smart_value_normalizer (some "1.5") = .pfloat ((3 : Rat) / 2)
  ∧ smart_value_normalizer (some "abc") = .pstr "abc"
  ∧ normalizeCell (some "") = none
  ∧ smart_value_normalizer none = .pnone
  ∧ (∀ s n, parsePyInt s = some n → smart_value_normalizer (some s) = .pint n)
  ∧ (∀ s q, parsePyInt s = none → parsePyFloat s = some q →
      smart_value_normalizer (some s) = .pfloat q)
  ∧ (∀ s, parsePyInt s = none → parsePyFloat s = none →
      smart_value_normalizer (some s) = .pstr s) := by
  refine ⟨by decide, ?_, by decide, rfl, rfl, ?_, ?_, ?_⟩
  · have h2 : smart_value_normalizer (some "1.5")
        = .pfloat ((digitsToNat ['1'] : Rat)
            + (digitsToNat ['5'] : Rat) / (10 : Rat) ^ 1) := rfl
    rw [h2, show digitsToNat ['1'] = 1 from by decide,
      show digitsToNat ['5'] = 5 from by decide]
    norm_num
  · intro s n h
    simp [smart_value_normalizer, h]
  · intro s q h1 h2
    simp [smart_value_normalizer, h1, h2]
  · intro s h1 h2
    simp [smart_value_normalizer, h1, h2]

/--
Witness for C9: the general clauses applied at concrete strings.
-/
theorem value_normalization_cases_witness :
    smart_value_normalizer (some "42") = .pint 42
  ∧ smart_value_normalizer (some "2.25") = .pfloat ((9 : Rat) / 4)
  ∧ smart_value_normalizer (some "xyz") = .pstr "xyz" :=
  ⟨value_normalization_cases.2.2.2.2.2.1 "42" 42 (by decide),
   value_normalization_cases.2.2.2.2.2.2.1 "2.25" ((9 : Rat) / 4)
     (by decide)
     (by
       have h2 : parsePyFloat "2.25"
           = some ((digitsToNat ['2'] : Rat)
               + (digitsToNat ['2', '5'] : Rat) / (10 : Rat) ^ 2) := rfl
       rw [h2, show digitsToNat ['2'] = 2 from by decide,
         show digitsToNat ['2', '5'] = 25 from by decide]
       norm_num),
   value_normalization_cases.2.2.2.2.2.2.2 "xyz" (by decide) (by decide)⟩

/-- Case analysis of the records component of one row step: either the
records are untouched (the row was dropped, or contributed metadata or
narrative), or the row is appended as a single record satisfying the
output invariant. -/
theorem processRow_records_cases (cf : Option (List String))
    (tr : String → String) (fn : String) (st : ClassifyState) (r : RawRow) :
    (processRow cf tr fn st r).records = st.records
    ∨ ((processRow cf tr fn st r).records = st.records ++ [mkDocResult fn r]
       ∧ goodRecord (mkDocResult fn r)) := by
  simp only [processRow]
  split
  next => exact Or.inl rfl
  next =>
    split
    next h1 =>
      split
      next => exact Or.inl rfl
      next h2 =>
        split
        next => exact Or.inl rfl
        next =>
          split
          next l =>
            split
            next =>
              refine Or.inr ⟨rfl, ?_, h1⟩
              simpa using h2
            next => exact Or.inl rfl
          next =>
            refine Or.inr ⟨rfl, ?_, h1⟩
            simpa using h2
    next => exact Or.inl rfl

/-- Fold preservation: a property of the accumulator preserved by each
step holds after folding a whole list. -/
theorem foldl_preserves {α β : Type} (P : β → Prop) (f : β → α → β)
    (hstep : ∀ b a, P b → P (f b a)) :
    ∀ (l : List α) (b : β), P b → P (l.foldl f b) := by
  intro l
  induction l with
  | nil => intro b hb; simpa using hb
  | cons a as ih =>
    intro b hb
    exact ih (f b a) (hstep b a hb)

/-- One row step preserves the record invariant of the accumulator. -/
theorem processRow_preserves_good (cf : Option (List String))
    (tr : String → String) (fn : String) :
    ∀ (st : ClassifyState) (r : RawRow),
      (∀ d ∈ st.records, goodRecord d) →
      ∀ d ∈ (processRow cf tr fn st r).records, goodRecord d := by
  intro st r hst d hd
  rcases processRow_records_cases cf tr fn st r with h | ⟨h, hg⟩
  · rw [h] at hd
    exact hst d hd
  · rw [h] at hd
    rcases List.mem_append.1 hd with h1 | h1
    · exact hst d h1
    · rw [List.mem_singleton.1 h1]
      exact hg

/-- A whole file preserves the record invariant. -/
theorem processFile_preserves_good (cf : Option (List String))
    (tr : String → String) :
    ∀ (st : ClassifyState) (f : CsvFile),
      (∀ d ∈ st.records, goodRecord d) →
      ∀ d ∈ (processFile cf tr st f).records, goodRecord d := by
  intro st f
  exact foldl_preserves (fun b => ∀ d ∈ b.records, goodRecord d)
    (processRow cf tr f.filename)
    (fun b a hb => processRow_preserves_good cf tr f.filename b a hb)
    f.data st

/--
C4: a row with a falsy context id cell is dropped without any effect; a
row whose context id starts with none of exactly the three patterns
FilingDate, Current and Prior1 is dropped without any effect; a row that
passes the filter and whose element id is one of the 14 metadata tags
writes its normalized value into the metadata map under that tag and adds
nothing to the records or the narrative; and every record the classifier
ever outputs has an element id outside the metadata tags and a context
identifier starting with one of the three patterns.
-/
theorem context_filter_and_metadata_rows :
    CONTEXT_PATTERNS = ["FilingDate", "Current", "Prior1"]
  ∧ META_PATTERNS.length = 14
  ∧ (∀ cf tr fn st (r : RawRow), contextTruthy r.contextId = false →
      processRow cf tr fn st r = st)
  ∧ (∀ cf tr fn st (r : RawRow),
      CONTEXT_PATTERNS.any (fun p => pyStartsWith (r.contextId.getD "") p) = false →
      processRow cf tr fn st r = st)
  ∧ (∀ cf tr fn st (r : RawRow),
      contextTruthy r.contextId = true →
      CONTEXT_PATTERNS.any (fun p => pyStartsWith (r.contextId.getD "") p) = true →
      r.elementId ∈ META_PATTERNS →
      (processRow cf tr fn st r).metadata r.elementId
          = some (smart_value_normalizer r.rawValue)
      ∧ (processRow cf tr fn st r).records = st.records
      ∧ (processRow cf tr fn st r).narrative = st.narrative)
  ∧ (∀ cf tr files, ∀ d ∈ (process_raw_csv_data cf tr files).1.records,
      d.elementId ∉ META_PATTERNS
      ∧ CONTEXT_PATTERNS.any (fun p => pyStartsWith d.contextIdentifier p) = true) := by
  refine ⟨rfl, rfl, ?_, ?_, ?_, ?_⟩
  · intro cf tr fn st r h
    simp [processRow, h]
  · intro cf tr fn st r h
    simp only [processRow]
    split
    next => rfl
    next =>
      rw [if_neg]
      simp [h]
  · intro cf tr fn st r hct hany hmem
    refine ⟨?_, ?_, ?_⟩ <;>
      simp [processRow, hct, hany, hmem, mkDocResult, dictSet]
  · intro cf tr files d hd
    have hrec : ∀ x ∈ (files.foldl (processFile cf tr) initClassifyState).records,
        goodRecord x := by
      refine foldl_preserves (fun b => ∀ x ∈ b.records, goodRecord x)
        (processFile cf tr)
        (fun b a hb => processFile_preserves_good cf tr b a hb)
        files initClassifyState ?_
      intro x hx
      simp [initClassifyState] at hx
    exact hrec d hd

/-- Witness for C4: a row with a missing context id and a row with the
context id NonFilterContext leave the state untouched; a metadata row
stores its parsed value under its tag. -/
theorem context_filter_and_metadata_rows_witness :
    processRow none (fun s => s) "f.csv" initClassifyState
        { elementId := "jppfs_cor:Assets", contextId := none,
          rawValue := some "1" }
      = initClassifyState
  ∧ processRow none (fun s => s) "f.csv" initClassifyState
        { elementId := "jppfs_cor:Assets", contextId := some "NonFilterContext",
          rawValue := some "1" }
      = initClassifyState
  ∧ (processRow none (fun s => s) "f.csv" initClassifyState
        { elementId := "jpdei_cor:EDINETCodeDEI",
          contextId := some "FilingDateInstant",
          rawValue := some "E12345" }).metadata "jpdei_cor:EDINETCodeDEI"
      = some (smart_value_normalizer (some "E12345")) :=
  ⟨context_filter_and_metadata_rows.2.2.1 none (fun s => s) "f.csv"
      initClassifyState _ (by decide),
   context_filter_and_metadata_rows.2.2.2.1 none (fun s => s) "f.csv"
      initClassifyState _ (by decide),
   (context_filter_and_metadata_rows.2.2.2.2.1 none (fun s => s) "f.csv"
      initClassifyState _ (by decide) (by decide) (by decide)).1⟩

/--
C5: for a row that passed the context filter and is neither a metadata tag
nor a narrative match: with an allow-list, the row is kept as a record
exactly when its element id is in the list, and a row outside the list
leaves the whole state untouched; with no allow-list the row is always
kept.
-/
theorem allow_list_row_filtering :
    ∀ (tr : String → String) (fn : String) (st : ClassifyState) (r : RawRow),
      contextTruthy r.contextId = true →
      CONTEXT_PATTERNS.any (fun p => pyStartsWith (r.contextId.getD "") p) = true →
      r.elementId ∉ META_PATTERNS →
      narrativeMatch r.elementId = false →
      (∀ cfl : List String, r.elementId ∈ cfl →
        (processRow (some cfl) tr fn st r).records
          = st.records ++ [mkDocResult fn r])
      ∧ (∀ cfl : List String, r.elementId ∉ cfl →
        processRow (some cfl) tr fn st r = st)
      ∧ (processRow none tr fn st r).records
          = st.records ++ [mkDocResult fn r] := by
  intro tr fn st r hct hany hmeta hnarr
  refine ⟨?_, ?_, ?_⟩
  · intro cfl hmemb
    simp [processRow, hct, hany, hmeta, hnarr, hmemb, mkDocResult]
  · intro cfl hnm
    simp [processRow, hct, hany, hmeta, hnarr, hnm, mkDocResult]
  · simp [processRow, hct, hany, hmeta, hnarr, mkDocResult]

/-- Witness for C5: with the allow-list containing only jppfs_cor:Assets,
an Assets row is kept, a Liabilities row is dropped entirely, and with no
allow-list the Liabilities row is kept. -/
theorem allow_list_row_filtering_witness :
    (processRow (some ["jppfs_cor:Assets"]) (fun s => s) "f.csv"
        initClassifyState
        { elementId := "jppfs_cor:Assets",
          contextId := some "CurrentYearInstant",
          rawValue := some "10" }).records
      = initClassifyState.records
        ++ [mkDocResult "f.csv"
              { elementId := "jppfs_cor:Assets",
                contextId := some "CurrentYearInstant",
                rawValue := some "10" }]
  ∧ processRow (some ["jppfs_cor:Assets"]) (fun s => s) "f.csv"
        initClassifyState
        { elementId := "jppfs_cor:Liabilities",
          contextId := some "CurrentYearInstant",
          rawValue := some "10" }
      = initClassifyState
  ∧ (processRow none (fun s => s) "f.csv" initClassifyState
        { elementId := "jppfs_cor:Liabilities",
          contextId := some "CurrentYearInstant",
          rawValue := some "10" }).records
      = initClassifyState.records
        ++ [mkDocResult "f.csv"
              { elementId := "jppfs_cor:Liabilities",
                contextId := some "CurrentYearInstant",
                rawValue := some "10" }] :=
  ⟨(allow_list_row_filtering (fun s => s) "f.csv" initClassifyState _
      (by decide) (by decide) (by decide) (by decide)).1
      ["jppfs_cor:Assets"] (by decide),
   (allow_list_row_filtering (fun s => s) "f.csv" initClassifyState _
      (by decide) (by decide) (by decide) (by decide)).2.1
      ["jppfs_cor:Assets"] (by decide),
   (allow_list_row_filtering (fun s => s) "f.csv" initClassifyState _
      (by decide) (by decide) (by decide) (by decide)).2.2⟩

/-- None of the 14 metadata tags matches the narrative pattern. -/
theorem meta_narrative_disjoint :
    ∀ e ∈ META_PATTERNS, narrativeMatch e = false := by decide

/-- One row step can only extend the narrative accumulator on the right. -/
theorem processRow_narrative_extends (cf : Option (List String))
    (tr : String → String) (fn : String) (st : ClassifyState) (r : RawRow) :
    ∃ t, (processRow cf tr fn st r).narrative = st.narrative ++ t := by
  simp only [processRow]
  split
  next => exact ⟨"", by simp⟩
  next =>
    split
    next =>
      split
      next => exact ⟨"", by simp⟩
      next =>
        split
        next => exact ⟨_, rfl⟩
        next =>
          split
          next l =>
            split
            next => exact ⟨"", by simp⟩
            next => exact ⟨"", by simp⟩
          next => exact ⟨"", by simp⟩
    next => exact ⟨"", by simp⟩

/-- A whole file can only extend the narrative accumulator on the right. -/
theorem processFile_narrative_extends (cf : Option (List String))
    (tr : String → String) :
    ∀ (rows : List RawRow) (fn : String) (st : ClassifyState),
      ∃ t, (rows.foldl (processRow cf tr fn) st).narrative
        = st.narrative ++ t := by
  intro rows
  induction rows with
  | nil => intro fn st; exact ⟨"", by simp⟩
  | cons a as ih =>
    intro fn st
    obtain ⟨t2, h2⟩ := ih fn (processRow cf tr fn st a)
    obtain ⟨t1, h1⟩ := processRow_narrative_extends cf tr fn st a
    refine ⟨t1 ++ t2, ?_⟩
    rw [List.foldl_cons, h2, h1, String.append_assoc]

/-- The whole document fold can only extend the narrative accumulator. -/
theorem processFiles_narrative_extends (cf : Option (List String))
    (tr : String → String) :
    ∀ (files : List CsvFile) (st : ClassifyState),
      ∃ t, (files.foldl (processFile cf tr) st).narrative
        = st.narrative ++ t := by
  intro files
  induction files with
  | nil => intro st; exact ⟨"", by simp⟩
  | cons f fs ih =>
    intro st
    obtain ⟨t2, h2⟩ := ih (processFile cf tr st f)
    obtain ⟨t1, h1⟩ := processFile_narrative_extends cf tr f.data f.filename st
    refine ⟨t1 ++ t2, ?_⟩
    rw [List.foldl_cons, h2]
    rw [show (processFile cf tr st f).narrative = st.narrative ++ t1 from h1]
    rw [String.append_assoc]

/--
C6: a row that passes the context filter and matches the narrative
pattern leaves the records and metadata untouched, sends the stringified
value to the translator exactly once, and appends the translation to the
end of the accumulator; and over any sequence of files the accumulator
only ever grows by right-concatenation.
-/
theorem narrative_rows_translated_and_appended :
    (∀ (cf : Option (List String)) (tr : String → String) (fn : String)
        (st : ClassifyState) (r : RawRow),
      contextTruthy r.contextId = true →
      CONTEXT_PATTERNS.any (fun p => pyStartsWith (r.contextId.getD "") p) = true →
      narrativeMatch r.elementId = true →
      processRow cf tr fn st r
        = { st with
            narrative :=
              st.narrative ++ tr (pyStr (smart_value_normalizer r.rawValue))
            translateCalls :=
              st.translateCalls ++ [pyStr (smart_value_normalizer r.rawValue)] })
  ∧ (∀ (cf : Option (List String)) (tr : String → String)
        (st : ClassifyState) (files : List CsvFile),
      ∃ t, (files.foldl (processFile cf tr) st).narrative
        = st.narrative ++ t) := by
  constructor
  · intro cf tr fn st r hct hany hn
    have hmem : r.elementId ∉ META_PATTERNS := by
      intro hm
      have hfalse := meta_narrative_disjoint r.elementId hm
      rw [hn] at hfalse
      exact Bool.noConfusion hfalse
    simp [processRow, hct, hany, hmem, hn, mkDocResult]
  · intro cf tr st files
    exact processFiles_narrative_extends cf tr files st

/-- Witness for C6: a concrete narrative row appends its translated value
and logs exactly one translator call. -/
theorem narrative_rows_translated_and_appended_witness :
    processRow none (fun s => "T:" ++ s) "f.csv" initClassifyState
        { elementId := "jpcrp_cor:DescriptionOfBusinessTextBlock",
          contextId := some "FilingDateInstant",
          rawValue := some "desc" }
      = { initClassifyState with
          narrative :=
            initClassifyState.narrative
              ++ (fun s => "T:" ++ s)
                  (pyStr (smart_value_normalizer (some "desc")))
          translateCalls :=
            initClassifyState.translateCalls
              ++ [pyStr (smart_value_normalizer (some "desc"))] } :=
  narrative_rows_translated_and_appended.1 none (fun s => "T:" ++ s) "f.csv"
    initClassifyState _ (by decide) (by decide) (by decide)

/-- The encoding loop returns on the first success, trying exactly the
candidates up to and including it. -/
theorem tryEncodings_first_success {A : Type} (readWith : String → Option A) :
    ∀ (l : List String) (e : String) (rest : List String) (v : A),
      (∀ x ∈ l, readWith x = none) → readWith e = some v →
      tryEncodings readWith (l ++ e :: rest) = (l ++ [e], some v) := by
  intro l
  induction l with
  | nil =>
    intro e rest v _ hv
    simp [tryEncodings, hv]
  | cons a as ih =>
    intro e rest v hnone hv
    have ha : readWith a = none := hnone a (List.mem_cons_self a as)
    have hrec := ih e rest v (fun x hx => hnone x (List.mem_cons_of_mem a hx)) hv
    simp [tryEncodings, ha, hrec]

/-- When every candidate fails, the loop tries them all and yields none. -/
theorem tryEncodings_all_fail {A : Type} (readWith : String → Option A) :
    ∀ (l : List String), (∀ x ∈ l, readWith x = none) →
      tryEncodings readWith l = (l, none) := by
  intro l
  induction l with
  | nil => intro _; rfl
  | cons a as ih =>
    intro h
    have ha : readWith a = none := h a (List.mem_cons_self a as)
    simp [tryEncodings, ha, ih (fun x hx => h x (List.mem_cons_of_mem a hx))]

/-- An unreadable file anywhere in the outcome list contributes nothing:
collecting with it gives the same list as collecting without it. -/
theorem collect_skips_unreadable {A : Type} :
    ∀ (pre post : List (String × FileReadOutcome A)) (fname : String),
      collectRawCsvData (pre ++ (fname, FileReadOutcome.unreadable) :: post)
        = collectRawCsvData (pre ++ post) := by
  intro pre post fname
  induction pre with
  | nil => simp [collectRawCsvData]
  | cons p ps ih =>
    cases hp : p.2 <;> simp [collectRawCsvData, hp, ih]

/--
C7: the candidate encodings are tried in order and the first that reads
successfully determines the result, with exactly the candidates up to it
tried and none after; when every candidate fails the file yields no rows;
and at the document level an unreadable file is skipped while the other
files are still collected and the result status is still success.
-/
theorem encoding_first_success_and_soft_failure :
    (∀ (A : Type) (readWith : String → Option A) (detected : Option String)
        (l : List String) (e : String) (rest : List String) (v : A),
      uniqueEncodings detected = l ++ e :: rest →
      (∀ x ∈ l, readWith x = none) →
      readWith e = some v →
      read_csv_file detected readWith = (l ++ [e], some v))
  ∧ (∀ (A : Type) (readWith : String → Option A) (detected : Option String),
      (∀ x ∈ uniqueEncodings detected, readWith x = none) →
      read_csv_file detected readWith = (uniqueEncodings detected, none))
  ∧ (∀ (A : Type) (pre post : List (String × FileReadOutcome A))
        (fname : String),
      collectRawCsvData (pre ++ (fname, FileReadOutcome.unreadable) :: post)
        = collectRawCsvData (pre ++ post))
  ∧ (∀ (A : Type) (outcomes : List (String × FileReadOutcome A)),
      (process_zip_file_status (Except.ok ()) false outcomes true).1
        = "success"
      ∧ (process_zip_file_status (Except.ok ()) false outcomes true).2
        = collectRawCsvData outcomes) := by
  refine ⟨?_, ?_, ?_, ?_⟩
  · intro A readWith detected l e rest v hu hnone hv
    unfold read_csv_file
    rw [hu]
    exact tryEncodings_first_success readWith l e rest v hnone hv
  · intro A readWith detected h
    unfold read_csv_file
    exact tryEncodings_all_fail readWith (uniqueEncodings detected) h
  · intro A pre post fname
    exact collect_skips_unreadable pre post fname
  · intro A outcomes
    exact ⟨rfl, rfl⟩

/-- Witness for C7: with no detected encoding and a reader succeeding only
at shift-jis, exactly the first five candidates are tried; a reader that
always fails tries the whole list and yields none; an unreadable file in
the middle of two good files is skipped; the status stays success. -/
theorem encoding_first_success_and_soft_failure_witness :
    read_csv_file none (fun e => if e = "shift-jis" then some 1 else none)
      = (["utf-16", "utf-16le", "utf-16be", "utf-8"] ++ ["shift-jis"], some 1)
  ∧ read_csv_file none (fun _ => (none : Option Nat))
      = (uniqueEncodings none, none)
  ∧ collectRawCsvData
        ([("a.csv", FileReadOutcome.okRows 5)]
          ++ ("bad.csv", FileReadOutcome.unreadable)
            :: [("b.csv", FileReadOutcome.okRows 6)])
      = collectRawCsvData
          ([("a.csv", FileReadOutcome.okRows 5)]
            ++ [("b.csv", FileReadOutcome.okRows 6)])
  ∧ (process_zip_file_status (Except.ok ()) false
        [("a.csv", FileReadOutcome.okRows 5),
         ("bad.csv", FileReadOutcome.unreadable)] true).1 = "success" :=
  ⟨encoding_first_success_and_soft_failure.1 Nat
      (fun e => if e = "shift-jis" then some 1 else none) none
      ["utf-16", "utf-16le", "utf-16be", "utf-8"] "shift-jis"
      ["euc-jp", "iso-8859-1", "windows-1252"] 1
      (by decide) (by decide) (by decide),
   encoding_first_success_and_soft_failure.2.1 Nat
      (fun _ => (none : Option Nat)) none (by intro x _; rfl),
   encoding_first_success_and_soft_failure.2.2.1 Nat
      [("a.csv", FileReadOutcome.okRows 5)]
      [("b.csv", FileReadOutcome.okRows 6)] "bad.csv",
   (encoding_first_success_and_soft_failure.2.2.2 Nat
      [("a.csv", FileReadOutcome.okRows 5),
       ("bad.csv", FileReadOutcome.unreadable)]).1⟩

/-- Membership in a run of consecutive days. -/
theorem dayList_mem : ∀ (n d x : Nat), x ∈ dayList d n ↔ d ≤ x ∧ x < d + n := by
  intro n
  induction n with
  | zero =>
    intro d x
    simp [dayList]
  | succ m ih =>
    intro d x
    simp [dayList, ih]
    omega

/-- A run of consecutive days is strictly increasing. -/
theorem dayList_pairwise : ∀ (n d : Nat), (dayList d n).Pairwise (· < ·) := by
  intro n
  induction n with
  | zero => intro d; simp [dayList]
  | succ m ih =>
    intro d
    refine List.Pairwise.cons ?_ (ih (d + 1))
    intro x hx
    have hm := (dayList_mem m (d + 1) x).1 hx
    omega

/-- Full characterization of the date-interval loop: state components and
pacing trace as functions of the visited days. -/
theorem runIntervalAux_spec (env : Nat → Except DayFetchErr DayFetchOk)
    (interval : Rat) :
    ∀ (n d : Nat) (st : IntervalState),
      runIntervalAux env interval n d st
        = ({ status_code :=
              st.status_code ++ (dayList d n).map (fun x => (x, scOf (env x)))
             fetch_status :=
              st.fetch_status ++ (dayList d n).flatMap (fun x => fsOf x (env x))
             message :=
              st.message ++ (dayList d n).map (fun x => (x, msgOf (env x)))
             results :=
              st.results ++ (dayList d n).flatMap (fun x => docsOf (env x)) },
           (dayList d n).flatMap
             (fun x => [PaceEv.request x, PaceEv.pause interval])) := by
  intro n
  induction n with
  | zero => intro d st; simp [runIntervalAux, dayList]
  | succ m ih =>
    intro d st
    simp only [runIntervalAux]
    rw [ih (d + 1) (stepDate env d st)]
    cases henv : env d <;>
      simp [stepDate, henv, dayList, scOf, msgOf, fsOf, docsOf,
        List.append_assoc]

/-- The requests of an interleaved request-pause trace are the days. -/
theorem requestsOf_pace_trace (interval : Rat) :
    ∀ (l : List Nat),
      requestsOf (l.flatMap (fun x => [PaceEv.request x, PaceEv.pause interval]))
        = l := by
  intro l
  induction l with
  | nil => rfl
  | cons a as ih =>
    simp only [List.flatMap_cons]
    simp [requestsOf] at ih ⊢
    try exact ih

/-- Loop-level behaviour of the date-interval fetch, the part that holds
regardless of the final assembly: the days from start to end are visited
strictly in chronological order with the configured pause after each
request, and the loop accumulator records the per-day statuses, messages
and documents in day order. -/
theorem interval_loop_order_and_recording :
    ∀ (env : Nat → Except DayFetchErr DayFetchOk) (interval : Rat)
      (dFrom dTo : Nat),
      (fetch_date_interval_doc_list env interval dFrom dTo).2
        = (dayList dFrom (dTo + 1 - dFrom)).flatMap
            (fun x => [PaceEv.request x, PaceEv.pause interval])
      ∧ requestsOf (fetch_date_interval_doc_list env interval dFrom dTo).2
        = dayList dFrom (dTo + 1 - dFrom)
      ∧ (dayList dFrom (dTo + 1 - dFrom)).Pairwise (· < ·)
      ∧ (runIntervalAux env interval (dTo + 1 - dFrom) dFrom
            initIntervalState).1.status_code
        = (dayList dFrom (dTo + 1 - dFrom)).map (fun x => (x, scOf (env x)))
      ∧ (runIntervalAux env interval (dTo + 1 - dFrom) dFrom
            initIntervalState).1.message
        = (dayList dFrom (dTo + 1 - dFrom)).map (fun x => (x, msgOf (env x)))
      ∧ (runIntervalAux env interval (dTo + 1 - dFrom) dFrom
            initIntervalState).1.results
        = (dayList dFrom (dTo + 1 - dFrom)).flatMap
            (fun x => docsOf (env x)) := by
  intro env interval dFrom dTo
  have hspec := runIntervalAux_spec env interval (dTo + 1 - dFrom) dFrom
    initIntervalState
  refine ⟨?_, ?_, dayList_pairwise (dTo + 1 - dFrom) dFrom, ?_, ?_, ?_⟩
  · simp only [fetch_date_interval_doc_list]
    rw [hspec]
  · simp only [fetch_date_interval_doc_list]
    rw [hspec]
    exact requestsOf_pace_trace interval _
  · rw [hspec]
    simp [initIntervalState]
  · rw [hspec]
    simp [initIntervalState]
  · rw [hspec]
    simp [initIntervalState]

/-- One recorded None anywhere makes the status_code validation reject. -/
theorem validateStatusCodes_none_of_mem :
    ∀ (l : List (Nat × Option Int)) (d : Nat), (d, none) ∈ l →
      validateStatusCodes l = none := by
  intro l
  induction l with
  | nil =>
    intro d h
    cases h
  | cons p rest ih =>
    intro d h
    match p with
    | (x, some v) =>
      rcases List.mem_cons.1 h with h1 | h1
      · simp at h1
      · simp [validateStatusCodes, ih d h1]
    | (x, none) => rfl

/-- Whenever some visited day fails with an exception whose status_code
attribute holds None (which is what every error escaping _fetch_list
carries), the DocListMultiMessage validation rejects the accumulator and
the whole-range call raises. -/
theorem interval_aborts_on_attr_none :
    ∀ (env : Nat → Except DayFetchErr DayFetchOk) (interval : Rat)
      (dFrom dTo d : Nat) (e : DayFetchErr),
      dFrom ≤ d → d ≤ dTo → env d = .error e → getattrStatusCode e = none →
      (fetch_date_interval_doc_list env interval dFrom dTo).1
        = .error () := by
  intro env interval dFrom dTo d e h1 h2 henv hattr
  have hspec := runIntervalAux_spec env interval (dTo + 1 - dFrom) dFrom
    initIntervalState
  have hmem : (d, (none : Option Int))
      ∈ (runIntervalAux env interval (dTo + 1 - dFrom) dFrom
          initIntervalState).1.status_code := by
    rw [hspec]
    simp only [initIntervalState, List.nil_append]
    refine List.mem_map.2 ⟨d, (dayList_mem (dTo + 1 - dFrom) dFrom d).2
      ⟨h1, by omega⟩, ?_⟩
    rw [henv]
    simp [scOf, hattr]
  simp only [fetch_date_interval_doc_list]
  rw [validateStatusCodes_none_of_mem _ d hmem]

/--
C8 (code evaluation at the failing input): over the range of days 0 to 2
where day 1 raises the plain EdinetAPIError that _fetch_list produces
(status_code attribute present and None), the loop itself keeps going as
the claim describes: all three days are visited in order with the pause
after each request, and the accumulator records both successes, the
failure with its None status and its message, and the documents of days 0
and 2.  But the final DocListMultiMessage assembly rejects the recorded
None for its int-typed status_code field, the constructor raises, and the
whole-range call fails without returning any of the accumulated results.
With a hypothetical day-1 exception lacking the attribute, getattr records
the default 500 and the partial results are returned.
-/
theorem date_interval_abort_on_recorded_none :
    (fetch_date_interval_doc_list dayOneFails 1 0 2).2
      = [PaceEv.request 0, PaceEv.pause 1, PaceEv.request 1, PaceEv.pause 1,
         PaceEv.request 2, PaceEv.pause 1]
  ∧ (runIntervalAux dayOneFails 1 3 0 initIntervalState).1.status_code
      = [(0, some 200), (1, none), (2, some 200)]
  ∧ (runIntervalAux dayOneFails 1 3 0 initIntervalState).1.message
      = [(0, none), (1, some "Unknown error after retries"), (2, none)]
  ∧ (runIntervalAux dayOneFails 1 3 0 initIntervalState).1.results
      = ["day0-doc", "day2-doc"]
  ∧ validateStatusCodes [(0, some 200), (1, none), (2, some 200)] = none
  ∧ (fetch_date_interval_doc_list dayOneFails 1 0 2).1 = .error ()
  ∧ (fetch_date_interval_doc_list dayOneNoAttr 1 0 2).1
      = .ok { status_code := [(0, 200), (1, 500), (2, 200)]
              fetch_status := [(0, 0), (2, 0)]
              message := [(0, none), (1, some "TypeError"), (2, none)]
              count := 2
              results := ["day0-doc", "day2-doc"] } := by
  refine ⟨rfl, rfl, rfl, rfl, rfl, rfl, rfl⟩

/-- Witness for C2: a concrete document id and JSON body yield the fail
status without invoking extraction. -/
theorem json_body_at_200_is_parse_failure_witness :
    (get_document "S100TM9A" (.ok (.jsonContent "error payload"))
        (fun _ => initExtractMessage "S100TM9A")).1.extract_status = "fail"
  ∧ (get_document "S100TM9A" (.ok (.jsonContent "error payload"))
        (fun _ => initExtractMessage "S100TM9A")).2 = false :=
  ⟨(json_body_at_200_is_parse_failure "S100TM9A" "error payload"
      (fun _ => initExtractMessage "S100TM9A")).2.1,
   (json_body_at_200_is_parse_failure "S100TM9A" "error payload"
      (fun _ => initExtractMessage "S100TM9A")).2.2.2⟩

/-- Witness for C3: the bad-archive path leaves no workspace behind. -/
theorem workspace_removed_on_every_exit_path_witness :
    dirExistsAfter (process_zip_file_trace ZipPath.badZip) = false ∧
    dirExistsAfter (process_zip_file_trace ZipPath.interruptedRead) = false :=
  ⟨workspace_removed_on_every_exit_path ZipPath.badZip,
   workspace_removed_on_every_exit_path ZipPath.interruptedRead⟩

/-- Witness for C10: the general clause applied at a concrete string. -/
theorem bool_flag_normalizer_truthiness_witness :
    meta_smart_value_normalizer (.pstr "anything")
      = .asBool (pyBoolOfString "anything") :=
  bool_flag_normalizer_truthiness.1 "anything"

end AsyncEdinet
